import Mathlib

/-!
Verification of the QE-ZK core (quantum-entanglement zero-knowledge simulation).

The Python source works with complex amplitudes carrying factors of 1/sqrt 2
and the eighth root of unity exp(i*pi/4) (the T gate).  All amplitudes that
ever arise therefore live in the ring Q[zeta] with zeta = exp(i*pi/4),
zeta^4 = -1, which we embed as quadruples of rationals (coefficients of
1, zeta, zeta^2, zeta^3).  The imaginary unit is zeta^2 and
sqrt 2 = zeta - zeta^3.  Floating point arithmetic of the source is idealised
as exact arithmetic in this ring (and in Q for probabilities and statistics).
-/

namespace QEZK

/-- Element of Q[zeta], zeta = exp(i*pi/4), zeta^4 = -1: the coefficients of
1, zeta, zeta^2, zeta^3. -/
structure Cyc8 where
  c0 : ℚ
  c1 : ℚ
  c2 : ℚ
  c3 : ℚ
deriving DecidableEq, Repr

def Cyc8.add (x y : Cyc8) : Cyc8 :=
  ⟨x.c0 + y.c0, x.c1 + y.c1, x.c2 + y.c2, x.c3 + y.c3⟩

def Cyc8.sub (x y : Cyc8) : Cyc8 :=
  ⟨x.c0 - y.c0, x.c1 - y.c1, x.c2 - y.c2, x.c3 - y.c3⟩

def Cyc8.neg (x : Cyc8) : Cyc8 := ⟨-x.c0, -x.c1, -x.c2, -x.c3⟩

/-- Multiplication in Q[zeta]: convolution of coefficients reduced by
zeta^4 = -1. -/
def Cyc8.mul (x y : Cyc8) : Cyc8 :=
  ⟨x.c0 * y.c0 - x.c1 * y.c3 - x.c2 * y.c2 - x.c3 * y.c1,
   x.c0 * y.c1 + x.c1 * y.c0 - x.c2 * y.c3 - x.c3 * y.c2,
   x.c0 * y.c2 + x.c1 * y.c1 + x.c2 * y.c0 - x.c3 * y.c3,
   x.c0 * y.c3 + x.c1 * y.c2 + x.c2 * y.c1 + x.c3 * y.c0⟩

instance : Add Cyc8 := ⟨Cyc8.add⟩
instance : Sub Cyc8 := ⟨Cyc8.sub⟩
instance : Neg Cyc8 := ⟨Cyc8.neg⟩
instance : Mul Cyc8 := ⟨Cyc8.mul⟩

/-- Embedding of the rationals. -/
def Cyc8.ofRat (q : ℚ) : Cyc8 := ⟨q, 0, 0, 0⟩

instance : Zero Cyc8 := ⟨Cyc8.ofRat 0⟩
instance : One Cyc8 := ⟨Cyc8.ofRat 1⟩

theorem Cyc8.ext_iff (x y : Cyc8) :
    x = y ↔ x.c0 = y.c0 ∧ x.c1 = y.c1 ∧ x.c2 = y.c2 ∧ x.c3 = y.c3 := by
  cases x; cases y
  simp [Cyc8.mk.injEq]

theorem Cyc8.add_def (x y : Cyc8) : x + y = Cyc8.add x y := rfl

theorem Cyc8.mul_def (x y : Cyc8) : x * y = Cyc8.mul x y := rfl

theorem Cyc8.sub_def (x y : Cyc8) : x - y = Cyc8.sub x y := rfl

theorem Cyc8.neg_def (x : Cyc8) : -x = Cyc8.neg x := rfl

theorem Cyc8.zero_def : (0 : Cyc8) = Cyc8.ofRat 0 := rfl

theorem Cyc8.one_def : (1 : Cyc8) = Cyc8.ofRat 1 := rfl

instance : CommRing Cyc8 where
  add_assoc x y z := by
    simp only [Cyc8.add_def, Cyc8.add, Cyc8.ext_iff]
    refine ⟨by ring, by ring, by ring, by ring⟩
  zero_add x := by
    simp only [Cyc8.zero_def, Cyc8.ofRat, Cyc8.add_def, Cyc8.add, Cyc8.ext_iff]
    refine ⟨by ring, by ring, by ring, by ring⟩
  add_zero x := by
    simp only [Cyc8.zero_def, Cyc8.ofRat, Cyc8.add_def, Cyc8.add, Cyc8.ext_iff]
    refine ⟨by ring, by ring, by ring, by ring⟩
  add_comm x y := by
    simp only [Cyc8.add_def, Cyc8.add, Cyc8.ext_iff]
    refine ⟨by ring, by ring, by ring, by ring⟩
  mul_assoc x y z := by
    simp only [Cyc8.mul_def, Cyc8.mul, Cyc8.ext_iff]
    refine ⟨by ring, by ring, by ring, by ring⟩
  one_mul x := by
    simp only [Cyc8.one_def, Cyc8.ofRat, Cyc8.mul_def, Cyc8.mul, Cyc8.ext_iff]
    refine ⟨by ring, by ring, by ring, by ring⟩
  mul_one x := by
    simp only [Cyc8.one_def, Cyc8.ofRat, Cyc8.mul_def, Cyc8.mul, Cyc8.ext_iff]
    refine ⟨by ring, by ring, by ring, by ring⟩
  left_distrib x y z := by
    simp only [Cyc8.add_def, Cyc8.mul_def, Cyc8.add, Cyc8.mul, Cyc8.ext_iff]
    refine ⟨by ring, by ring, by ring, by ring⟩
  right_distrib x y z := by
    simp only [Cyc8.add_def, Cyc8.mul_def, Cyc8.add, Cyc8.mul, Cyc8.ext_iff]
    refine ⟨by ring, by ring, by ring, by ring⟩
  mul_comm x y := by
    simp only [Cyc8.mul_def, Cyc8.mul, Cyc8.ext_iff]
    refine ⟨by ring, by ring, by ring, by ring⟩
  zero_mul x := by
    simp only [Cyc8.zero_def, Cyc8.ofRat, Cyc8.mul_def, Cyc8.mul, Cyc8.ext_iff]
    refine ⟨by ring, by ring, by ring, by ring⟩
  mul_zero x := by
    simp only [Cyc8.zero_def, Cyc8.ofRat, Cyc8.mul_def, Cyc8.mul, Cyc8.ext_iff]
    refine ⟨by ring, by ring, by ring, by ring⟩
  neg_add_cancel x := by
    simp only [Cyc8.zero_def, Cyc8.ofRat, Cyc8.neg_def, Cyc8.neg, Cyc8.add_def, Cyc8.add,
      Cyc8.ext_iff]
    refine ⟨by ring, by ring, by ring, by ring⟩
  sub_eq_add_neg x y := by
    simp only [Cyc8.sub_def, Cyc8.sub, Cyc8.neg_def, Cyc8.neg, Cyc8.add_def, Cyc8.add,
      Cyc8.ext_iff]
    refine ⟨by ring, by ring, by ring, by ring⟩
  nsmul := nsmulRec
  zsmul := zsmulRec

/-- Componentwise evaluation of addition on explicit quadruples. -/
theorem Cyc8.mk_add (a b c d e f g h : ℚ) :
    Cyc8.mk a b c d + Cyc8.mk e f g h = Cyc8.mk (a + e) (b + f) (c + g) (d + h) := rfl

/-- Componentwise evaluation of subtraction on explicit quadruples. -/
theorem Cyc8.mk_sub (a b c d e f g h : ℚ) :
    Cyc8.mk a b c d - Cyc8.mk e f g h = Cyc8.mk (a - e) (b - f) (c - g) (d - h) := rfl

/-- Componentwise evaluation of negation on explicit quadruples. -/
theorem Cyc8.mk_neg (a b c d : ℚ) : -Cyc8.mk a b c d = Cyc8.mk (-a) (-b) (-c) (-d) := rfl

/-- Componentwise evaluation of multiplication on explicit quadruples. -/
theorem Cyc8.mk_mul (a b c d e f g h : ℚ) :
    Cyc8.mk a b c d * Cyc8.mk e f g h =
      Cyc8.mk (a * e - b * h - c * g - d * f) (a * f + b * e - c * h - d * g)
        (a * g + b * f + c * e - d * h) (a * h + b * g + c * f + d * e) := rfl

/-- The zero element as an explicit quadruple. -/
theorem Cyc8.zero_mk : (0 : Cyc8) = Cyc8.mk 0 0 0 0 := rfl

/-- The one element as an explicit quadruple. -/
theorem Cyc8.one_mk : (1 : Cyc8) = Cyc8.mk 1 0 0 0 := rfl

/-- The imaginary unit i = zeta^2. -/
def Cyc8.iu : Cyc8 := ⟨0, 0, 1, 0⟩

/-- The primitive eighth root of unity zeta = exp(i*pi/4) (value of the
T gate's phase). -/
def Cyc8.zeta : Cyc8 := ⟨0, 1, 0, 0⟩

/-- sqrt 2 = zeta - zeta^3. -/
def Cyc8.sqrtTwo : Cyc8 := ⟨0, 1, 0, -1⟩

/-- 1 / sqrt 2 = (zeta - zeta^3) / 2. -/
def Cyc8.invSqrtTwo : Cyc8 := ⟨0, 1/2, 0, -1/2⟩

/-- Complex conjugation: zeta maps to zeta^7 = -zeta^3. -/
def Cyc8.conj (x : Cyc8) : Cyc8 := ⟨x.c0, -x.c3, -x.c2, -x.c1⟩

/-- Squared magnitude |x|^2 = x * conj x (a real element of Q[sqrt 2]:
c2 = 0 and c3 = -c1). -/
def Cyc8.normSq (x : Cyc8) : Cyc8 := x * x.conj

/-- A 2-qubit state: 4 complex amplitudes (numpy 4-element array). -/
structure V4 where
  s0 : Cyc8
  s1 : Cyc8
  s2 : Cyc8
  s3 : Cyc8
deriving DecidableEq, Repr

/-- A single-qubit gate: 2 x 2 complex matrix. -/
structure M2 where
  m00 : Cyc8
  m01 : Cyc8
  m10 : Cyc8
  m11 : Cyc8
deriving DecidableEq, Repr

/-- A 2-qubit operator: 4 x 4 complex matrix, stored as 4 rows. -/
structure M4 where
  r0 : V4
  r1 : V4
  r2 : V4
  r3 : V4
deriving DecidableEq, Repr

/-- Kronecker product of two 2 x 2 matrices (numpy.kron): entry at row
2i+j, column 2k+l is a[i,k] * b[j,l]. -/
def kron (a b : M2) : M4 :=
  ⟨⟨a.m00 * b.m00, a.m00 * b.m01, a.m01 * b.m00, a.m01 * b.m01⟩,
   ⟨a.m00 * b.m10, a.m00 * b.m11, a.m01 * b.m10, a.m01 * b.m11⟩,
   ⟨a.m10 * b.m00, a.m10 * b.m01, a.m11 * b.m00, a.m11 * b.m01⟩,
   ⟨a.m10 * b.m10, a.m10 * b.m11, a.m11 * b.m10, a.m11 * b.m11⟩⟩

/-- Dot product of a row with a state vector. -/
def dotV4 (r v : V4) : Cyc8 :=
  r.s0 * v.s0 + r.s1 * v.s1 + r.s2 * v.s2 + r.s3 * v.s3

/-- Matrix-vector product (numpy @). -/
def mulVec (m : M4) (v : V4) : V4 :=
  ⟨dotV4 m.r0 v, dotV4 m.r1 v, dotV4 m.r2 v, dotV4 m.r3 v⟩

/-- Scale a 2 x 2 matrix by a scalar. -/
def smulM2 (c : Cyc8) (m : M2) : M2 :=
  ⟨c * m.m00, c * m.m01, c * m.m10, c * m.m11⟩

/- Single-qubit gates of QuantumStatePreparation.__init__ -/

/-- Hadamard gate [[1,1],[1,-1]] / sqrt 2. -/
def gateH : M2 := smulM2 Cyc8.invSqrtTwo ⟨1, 1, 1, -1⟩

/-- Pauli-X gate [[0,1],[1,0]]. -/
def gateX : M2 := ⟨0, 1, 1, 0⟩

/-- Pauli-Y gate [[0,-i],[i,0]]. -/
def gateY : M2 := ⟨0, -Cyc8.iu, Cyc8.iu, 0⟩

/-- Pauli-Z gate [[1,0],[0,-1]]. -/
def gateZ : M2 := ⟨1, 0, 0, -1⟩

/-- Identity gate. -/
def gateI : M2 := ⟨1, 0, 0, 1⟩

/-- Phase gate S = [[1,0],[0,i]] (WitnessEncoder.gate_library). -/
def gateS : M2 := ⟨1, 0, 0, Cyc8.iu⟩

/-- T gate [[1,0],[0,exp(i*pi/4)]] (WitnessEncoder.gate_library). -/
def gateT : M2 := ⟨1, 0, 0, Cyc8.zeta⟩

/-- Two-qubit CNOT gate of QuantumStatePreparation.__init__. -/
def gateCNOT : M4 :=
  ⟨⟨1, 0, 0, 0⟩,
   ⟨0, 1, 0, 0⟩,
   ⟨0, 0, 0, 1⟩,
   ⟨0, 0, 1, 0⟩⟩

/-- QuantumStatePreparation.create_bell_state: start at the basis state 00,
apply Hadamard on qubit 0, CNOT, then optionally Z, X or Y on qubit 0
depending on the requested kind (an unrecognised kind falls through and
returns Phi-plus, as in the source). -/
def createBellState (stateType : String) : V4 :=
  let state0 : V4 := ⟨1, 0, 0, 0⟩
  let state1 := mulVec (kron gateH gateI) state0
  let state2 := mulVec gateCNOT state1
  if stateType = "phi_minus" then mulVec (kron gateZ gateI) state2
  else if stateType = "psi_plus" then mulVec (kron gateX gateI) state2
  else if stateType = "psi_minus" then mulVec (kron gateY gateI) state2
  else state2

/-- Sum of the squared magnitudes of the amplitudes (the square of the L2
norm). -/
def l2normSq (v : V4) : Cyc8 :=
  v.s0.normSq + v.s1.normSq + v.s2.normSq + v.s3.normSq

/-- Componentwise evaluation of conjugation on explicit quadruples. -/
theorem Cyc8.conj_mk (a b c d : ℚ) : (Cyc8.mk a b c d).conj = Cyc8.mk a (-d) (-c) (-b) := rfl

/-- Conjugation fixes zero. -/
theorem Cyc8.conj_zero : (0 : Cyc8).conj = 0 := rfl

/-- Conjugation fixes one. -/
theorem Cyc8.conj_one : (1 : Cyc8).conj = 1 := rfl

/-!
Exception kinds of qezk.exceptions raised by the modelled code paths.
Fallible operations return Except QEZKError.
-/

/-- The exception classes of qezk.exceptions (plus Python's ValueError,
raised by BellMeasurement.measure on an unknown basis). -/
inductive QEZKError where
  | protocolError
  | configurationError
  | verificationError
  | quantumStateError
  | entanglementError
  | measurementError
  | witnessEncodingError
  | valueError
deriving DecidableEq, Repr

instance {e a : Type} [DecidableEq e] [DecidableEq a] : DecidableEq (Except e a) := fun x y =>
  match x, y with
  | .error u, .error v =>
    if h : u = v then .isTrue (by rw [h]) else .isFalse (by simp [h])
  | .error _, .ok _ => .isFalse (by simp)
  | .ok _, .error _ => .isFalse (by simp)
  | .ok u, .ok v =>
    if h : u = v then .isTrue (by rw [h]) else .isFalse (by simp [h])

/-!
BellMeasurement (measurement.py).

A measurement draws one uniform sample r from [0,1) and returns outcome 0
when r < prob0.  The probability prob0 is an element of the real subfield
Q[sqrt 2] of Cyc8 (c0 + c1 * sqrt 2 with c2 = 0, c3 = -c1); the comparison
r < prob0 is decided exactly.
-/

/-- Decide r < c0 + c1 * sqrt 2 for a real element of Cyc8 (used to draw a
measurement outcome from a uniform sample r). -/
def ltReal (r : ℚ) (z : Cyc8) : Bool :=
  let c := z.c0 - r
  let b := z.c1
  if b = 0 then decide (0 < c)
  else if 0 ≤ b then decide (0 ≤ c) || decide (c ^ 2 < 2 * b ^ 2)
  else decide (0 < c) && decide (2 * b ^ 2 < c ^ 2)

/-- The X measurement basis [[1,1],[1,-1]] / sqrt 2 of
BellMeasurement.__init__ (self.x_basis). -/
def xBasisM : M2 := smulM2 Cyc8.invSqrtTwo ⟨1, 1, 1, -1⟩

/-- The Y measurement basis [[1,i],[1,-i]] / sqrt 2 of
BellMeasurement.__init__ (self.y_basis). -/
def yBasisM : M2 := smulM2 Cyc8.invSqrtTwo ⟨1, Cyc8.iu, 1, -Cyc8.iu⟩

/-- Outcome-0 probability of the Z branch of BellMeasurement.measure:
|state[0]|^2 + |state[2]|^2. -/
def prob0Z (s : V4) : Cyc8 := s.s0.normSq + s.s2.normSq

/-- Outcome-0 probability of the X branch of BellMeasurement.measure:
transform by kron(x_basis, eye(2)) and read |t[0]|^2 + |t[2]|^2. -/
def prob0X (s : V4) : Cyc8 :=
  let t := mulVec (kron xBasisM gateI) s
  t.s0.normSq + t.s2.normSq

/-- Outcome-0 probability of the Y branch of BellMeasurement.measure:
transform by kron(y_basis, eye(2)) and read |t[0]|^2 + |t[2]|^2. -/
def prob0Y (s : V4) : Cyc8 :=
  let t := mulVec (kron yBasisM gateI) s
  t.s0.normSq + t.s2.normSq

/-- BellMeasurement.measure: draw outcome 0 when the uniform sample r is
below the outcome-0 probability of the requested basis, else outcome 1;
raise ValueError on an unknown basis. -/
def measure (r : ℚ) (state : V4) (basis : String) : Except QEZKError ℤ :=
  if basis = "Z" then .ok (if ltReal r (prob0Z state) then 0 else 1)
  else if basis = "X" then .ok (if ltReal r (prob0X state) then 0 else 1)
  else if basis = "Y" then .ok (if ltReal r (prob0Y state) then 0 else 1)
  else .error .valueError

/-!
CHSH inequality test (BellMeasurement.chsh_inequality_test).
-/

/-- Accumulator for the 2 x 2 correlation table: signed sums e and sample
counts n for the four (alice, bob) basis cells with 0 = Z and 1 = X. -/
structure ChshAcc where
  e00 : ℤ
  e01 : ℤ
  e10 : ℤ
  e11 : ℤ
  n00 : ℕ
  n01 : ℕ
  n10 : ℕ
  n11 : ℕ
deriving DecidableEq, Repr

/-- The all-zero accumulator (np.zeros((2,2)) twice). -/
def ChshAcc.init : ChshAcc := ⟨0, 0, 0, 0, 0, 0, 0, 0⟩

/-- One step of the CHSH loop: only samples whose two bases both lie in
Z, X contribute; the cell gains +1 when the results agree and -1 when they
differ, and its count gains 1. -/
def chshStep (acc : ChshAcc) (ar br : ℤ) (ab bb : String) : ChshAcc :=
  if (ab = "Z" ∨ ab = "X") ∧ (bb = "Z" ∨ bb = "X") then
    let c : ℤ := if ar = br then 1 else -1
    if ab = "Z" then
      if bb = "Z" then { acc with e00 := acc.e00 + c, n00 := acc.n00 + 1 }
      else { acc with e01 := acc.e01 + c, n01 := acc.n01 + 1 }
    else
      if bb = "Z" then { acc with e10 := acc.e10 + c, n10 := acc.n10 + 1 }
      else { acc with e11 := acc.e11 + c, n11 := acc.n11 + 1 }
  else acc

/-- The zip-based loop of chsh_inequality_test: walk the four lists in
lockstep (stopping at the shortest, as Python zip does). -/
def chshRun : ChshAcc → List ℤ → List ℤ → List String → List String → ChshAcc
  | acc, a :: ar, b :: br, x :: xr, y :: yr => chshRun (chshStep acc a b x y) ar br xr yr
  | acc, _, _, _, _ => acc

/-- Normalise one cell: divide the signed sum by the count when the count
is positive, keep 0 otherwise. -/
def chshCell (e : ℤ) (n : ℕ) : ℚ := if 0 < n then (e : ℚ) / (n : ℚ) else 0

/-- The 2 x 2 correlation table E. -/
structure ChshTable where
  t00 : ℚ
  t01 : ℚ
  t10 : ℚ
  t11 : ℚ
deriving DecidableEq, Repr

/-- BellMeasurement.chsh_inequality_test: build the correlation table from
the four input lists and return (|S|, E) with
S = E[0,0] - E[0,1] + E[1,0] + E[1,1]. -/
def chshInequalityTest (aliceResults bobResults : List ℤ)
    (aliceBases bobBases : List String) : ℚ × ChshTable :=
  let acc := chshRun ChshAcc.init aliceResults bobResults aliceBases bobBases
  let e : ChshTable :=
    ⟨chshCell acc.e00 acc.n00, chshCell acc.e01 acc.n01,
     chshCell acc.e10 acc.n10, chshCell acc.e11 acc.n11⟩
  let s := e.t00 - e.t01 + e.t10 + e.t11
  (|s|, e)

/-!
SHA-256 (hashlib.sha256 used by WitnessEncoder.statement_to_bases),
implemented over Nat with explicit reduction modulo 2^32.  Byte strings are
modelled as lists of naturals below 256 (the UTF-8 bytes of the Python
strings).
-/

/-- Reduce to a 32-bit word. -/
def w32 (n : ℕ) : ℕ := n % 4294967296

/-- Right rotation of a 32-bit word. -/
def rotr32 (x n : ℕ) : ℕ := w32 ((x >>> n) ||| (x <<< (32 - n)))

/-- Big sigma-0 of the SHA-256 compression function. -/
def bsig0 (x : ℕ) : ℕ := rotr32 x 2 ^^^ rotr32 x 13 ^^^ rotr32 x 22

/-- Big sigma-1 of the SHA-256 compression function. -/
def bsig1 (x : ℕ) : ℕ := rotr32 x 6 ^^^ rotr32 x 11 ^^^ rotr32 x 25

/-- Small sigma-0 of the SHA-256 message schedule. -/
def ssig0 (x : ℕ) : ℕ := rotr32 x 7 ^^^ rotr32 x 18 ^^^ (x >>> 3)

/-- Small sigma-1 of the SHA-256 message schedule. -/
def ssig1 (x : ℕ) : ℕ := rotr32 x 17 ^^^ rotr32 x 19 ^^^ (x >>> 10)

/-- Choice function of the compression round (bitwise not as xor with the
all-ones word). -/
def sha256Ch (e f g : ℕ) : ℕ := (e &&& f) ^^^ ((e ^^^ 4294967295) &&& g)

/-- Majority function of the compression round. -/
def sha256Maj (a b c : ℕ) : ℕ := (a &&& b) ^^^ (a &&& c) ^^^ (b &&& c)

/-- The 64 SHA-256 round constants. -/
def sha256K : List ℕ :=
  [1116352408, 1899447441, 3049323471, 3921009573, 961987163, 1508970993, 2453635748, 2870763221,
   3624381080, 310598401, 607225278, 1426881987, 1925078388, 2162078206, 2614888103, 3248222580,
   3835390401, 4022224774, 264347078, 604807628, 770255983, 1249150122, 1555081692, 1996064986,
   2554220882, 2821834349, 2952996808, 3210313671, 3336571891, 3584528711, 113926993, 338241895,
   666307205, 773529912, 1294757372, 1396182291, 1695183700, 1986661051, 2177026350, 2456956037,
   2730485921, 2820302411, 3259730800, 3345764771, 3516065817, 3600352804, 4094571909, 275423344,
   430227734, 506948616, 659060556, 883997877, 958139571, 1322822218, 1537002063, 1747873779,
   1955562222, 2024104815, 2227730452, 2361852424, 2428436474, 2756734187, 3204031479, 3329325298]

/-- The SHA-256 initial hash value. -/
def sha256H0 : List ℕ :=
  [1779033703, 3144134277, 1013904242, 2773480762, 1359893119, 2600822924, 528734635, 1541459225]

/-- Big-endian bytes of a number, k bytes wide. -/
def bytesBE (k n : ℕ) : List ℕ :=
  (List.range k).map fun i => n >>> (8 * (k - 1 - i)) % 256

/-- SHA-256 padding: append the 0x80 byte, zero bytes up to 56 mod 64, and
the 8-byte big-endian bit length. -/
def sha256Pad (msg : List ℕ) : List ℕ :=
  let z := (119 - msg.length % 64) % 64
  msg ++ [128] ++ List.replicate z 0 ++ bytesBE 8 (8 * msg.length)

/-- A 64-byte block as 16 big-endian 32-bit words. -/
def sha256ToWords (block : List ℕ) : List ℕ :=
  (List.range 16).map fun i =>
    16777216 * block.getD (4 * i) 0 + 65536 * block.getD (4 * i + 1) 0 +
      256 * block.getD (4 * i + 2) 0 + block.getD (4 * i + 3) 0

/-- One message-schedule extension step: append word t computed from words
t-2, t-7, t-15, t-16. -/
def sha256ExtendStep (ws : List ℕ) : List ℕ :=
  let t := ws.length
  ws ++ [w32 (ssig1 (ws.getD (t - 2) 0) + ws.getD (t - 7) 0 +
    ssig0 (ws.getD (t - 15) 0) + ws.getD (t - 16) 0)]

/-- Iterate a function n times. -/
def iterateN {α : Type} (f : α → α) : ℕ → α → α
  | 0, a => a
  | n + 1, a => iterateN f n (f a)

/-- One compression round on the 8-word working state, fed the pair of
round constant and schedule word. -/
def sha256Round (st : List ℕ) (kw : ℕ × ℕ) : List ℕ :=
  match st with
  | [a, b, c, d, e, f, g, h] =>
    let t1 := w32 (h + bsig1 e + sha256Ch e f g + kw.1 + kw.2)
    let t2 := w32 (bsig0 a + sha256Maj a b c)
    [w32 (t1 + t2), a, b, c, w32 (d + t1), e, f, g]
  | other => other

/-- Process one 64-byte block: run the 64 rounds on the schedule and add
the result back into the hash state. -/
def sha256Block (hs : List ℕ) (block : List ℕ) : List ℕ :=
  let ws := iterateN sha256ExtendStep 48 (sha256ToWords block)
  let st := List.foldl sha256Round hs (sha256K.zip ws)
  (hs.zip st).map fun p => w32 (p.1 + p.2)

/-- Take n leading 64-byte chunks off a byte list. -/
def chunksGo : ℕ → List ℕ → List (List ℕ)
  | 0, _ => []
  | n + 1, l => l.take 64 :: chunksGo n (l.drop 64)

/-- Split a byte list whose length is a multiple of 64 (as the padded
message always is) into its 64-byte chunks. -/
def chunks64 (l : List ℕ) : List (List ℕ) := chunksGo (l.length / 64) l

/-- SHA-256 of a byte string: pad, fold the compression over the 64-byte
chunks, and emit the 8 state words in big-endian bytes. -/
def sha256 (msg : List ℕ) : List ℕ :=
  ((chunks64 (sha256Pad msg)).foldl sha256Block sha256H0).foldr
    (fun h acc => bytesBE 4 h ++ acc) []

/-!
WitnessEncoder (witness_encoder.py).  Witness bitstrings are modelled as
lists of booleans (the characters 0 and 1 of the Python string).
-/

/-- The gate name list of WitnessEncoder.__init__, in dict insertion
order: I, X, Y, Z, H, S, T (7 entries). -/
def gateNames : List String := ["I", "X", "Y", "Z", "H", "S", "T"]

/-- The gate library of WitnessEncoder.__init__: name to matrix. -/
def gateLibrary (name : String) : M2 :=
  if name = "I" then gateI
  else if name = "X" then gateX
  else if name = "Y" then gateY
  else if name = "Z" then gateZ
  else if name = "H" then gateH
  else if name = "S" then gateS
  else if name = "T" then gateT
  else gateI

/-- int(bits, 2): the value of a bit list read most significant first. -/
def bitsToNat (bits : List Bool) : ℕ :=
  bits.foldl (fun acc b => 2 * acc + (if b then 1 else 0)) 0

/-- Value of one (up to 3-bit) witness group, zero-padded on the right to
3 bits. -/
def groupVal (bits : List Bool) : ℕ :=
  bitsToNat (bits ++ List.replicate (3 - bits.length) false)

/-- WitnessEncoder.witness_to_quantum_circuit: consume the witness three
bits at a time (a short final group is padded by groupVal); each group
selects gate_names[int(group, 2) mod 7]. -/
def witnessToQuantumCircuit : List Bool → List String
  | [] => []
  | [a] => [gateNames.getD (groupVal [a] % gateNames.length) "I"]
  | [a, b] => [gateNames.getD (groupVal [a, b] % gateNames.length) "I"]
  | a :: b :: c :: rest =>
    gateNames.getD (groupVal [a, b, c] % gateNames.length) "I" ::
      witnessToQuantumCircuit rest

/-- The basis dictionary 0=Z, 1=X, 2=Y, 3=Z of statement_to_bases. -/
def basisOfIndex (n : ℕ) : String :=
  if n = 0 then "Z" else if n = 1 then "X" else if n = 2 then "Y" else "Z"

/-- WitnessEncoder.statement_to_bases: ConfigurationError when the
requested count is below 1, otherwise for index i read byte i mod 32 of
the SHA-256 digest of the statement, shift right by 2*(i mod 4) and mask
two bits, and translate through the basis dictionary. -/
def statementToBases (statement : List ℕ) (numMeasurements : ℤ) :
    Except QEZKError (List String) :=
  if numMeasurements < 1 then .error .configurationError
  else
    let digest := sha256 statement
    .ok ((List.range numMeasurements.toNat).map fun i =>
      basisOfIndex ((digest.getD (i % digest.length) 0 >>> (2 * (i % 4))) &&& 3))

/-- WitnessEncoder.apply_circuit: left-fold the gate sequence over the
state, each gate acting on qubit 0 (kron with the identity on qubit 1). -/
def applyCircuit (gateSequence : List String) (state : V4) : V4 :=
  gateSequence.foldl (fun st name => mulVec (kron (gateLibrary name) gateI) st) state

/-!
EntanglementSource (entanglement.py) and the protocol orchestrator
(protocol.py).

Randomness model: numpy's global generator, reseeded by set_seed, is a
stream family F : seed -> position -> sample together with a mutable
state (current seed, position); each measurement consumes one sample.
set_seed(k) overwrites the state with (k, 0) regardless of its previous
value, exactly as np.random.seed does to the global generator.
-/

/-- The global random generator state: current seed and position in its
stream. -/
abbrev RNGState := ℤ × ℕ

/-- EntanglementSource.set_seed: reseed the global generator, discarding
its previous state. -/
def setSeed (seed : ℤ) (_st : RNGState) : RNGState := (seed, 0)

/-- EntanglementSource.generate_epr_pairs: validate the count and kind,
then build that many fresh Bell states (the length self-check of the
source is vacuously true here since replicate has the requested length). -/
def generateEPRPairs (numPairs : ℤ) (stateType : String) : Except QEZKError (List V4) :=
  if numPairs < 1 then .error .configurationError
  else if 1000000 < numPairs then .error .configurationError
  else if ¬ (stateType = "phi_plus" ∨ stateType = "phi_minus" ∨
      stateType = "psi_plus" ∨ stateType = "psi_minus") then .error .configurationError
  else .ok (List.replicate numPairs.toNat (createBellState stateType))

/-- EntanglementSource.split_epr_pairs: both parties reference the same
pair sequence. -/
def splitEPRPairs (pairs : List V4) : List V4 × List V4 := (pairs, pairs)

/-- The configuration of a QuantumEntanglementZK instance. -/
structure QEZKConfig where
  numPairs : ℤ
  chshThreshold : ℚ
deriving DecidableEq, Repr

/-- QuantumEntanglementZK.__init__: validate num_epr_pairs and
chsh_threshold. -/
def initQEZK (numPairs : ℤ) (chshThreshold : ℚ) : Except QEZKError QEZKConfig :=
  if numPairs < 1 then .error .configurationError
  else if 1000000 < numPairs then .error .configurationError
  else if chshThreshold < 0 ∨ 3 < chshThreshold then .error .configurationError
  else .ok ⟨numPairs, chshThreshold⟩

/-- QE-ZK proof record (QEZKProof dataclass). -/
structure ProofRecord where
  proverResults : List ℤ
  verifierResults : List ℤ
  measurementBases : List String
  chshValue : ℚ
  isValid : Bool
  statement : List ℕ
deriving DecidableEq, Repr

/-- QuantumEntanglementZK.setup: reseed when a seed is given, generate the
EPR pairs and hand the same sequence to both parties. -/
def setup (cfg : QEZKConfig) (seed : Option ℤ) (st : RNGState) :
    Except QEZKError (List V4 × List V4 × RNGState) :=
  let st1 := match seed with
    | some k => setSeed k st
    | none => st
  match generateEPRPairs cfg.numPairs "phi_plus" with
  | .error e => .error e
  | .ok pairs => .ok ((splitEPRPairs pairs).1, (splitEPRPairs pairs).2, st1)

/-- Measure a list of (particle, basis) pairs in order, transforming each
particle by t first and consuming one random sample per measurement. -/
def measureSeq (F : ℤ → ℕ → ℚ) (t : V4 → V4) :
    RNGState → List (V4 × String) → Except QEZKError (List ℤ × RNGState)
  | st, [] => .ok ([], st)
  | st, pb :: rest =>
    match measure (F st.1 st.2) (t pb.1) pb.2 with
    | .error e => .error e
    | .ok o =>
      match measureSeq F t (st.1, st.2 + 1) rest with
      | .error e => .error e
      | .ok osSt => .ok (o :: osSt.1, osSt.2)

/-- The except clause of prover_phase: ProtocolError, WitnessEncodingError
and MeasurementError propagate, anything else is wrapped as
ProtocolError. -/
def wrapProverError (e : QEZKError) : QEZKError :=
  match e with
  | .protocolError | .witnessEncodingError | .measurementError => e
  | _ => .protocolError

/-- QuantumEntanglementZK.prover_phase: validate the inputs, derive the
gate sequence from the witness and the bases from the statement, then
apply the circuit to each particle and measure it in its basis (a failed
measurement surfaces as MeasurementError). -/
def proverPhase (F : ℤ → ℕ → ℚ) (statement : List ℕ) (witness : List Bool)
    (proverParticles : List V4) (st : RNGState) :
    Except QEZKError (List ℤ × List String × RNGState) :=
  if statement.length = 0 then .error .protocolError
  else if proverParticles.length = 0 then .error .protocolError
  else
    let gateSequence := witnessToQuantumCircuit witness
    match statementToBases statement (proverParticles.length : ℤ) with
    | .error e => .error (wrapProverError e)
    | .ok measurementBases =>
      if measurementBases.length ≠ proverParticles.length then .error .protocolError
      else
        match measureSeq F (applyCircuit gateSequence) st (proverParticles.zip measurementBases) with
        | .error _ => .error .measurementError
        | .ok resultsSt =>
          if resultsSt.1.length ≠ proverParticles.length then .error .protocolError
          else .ok (resultsSt.1, measurementBases, resultsSt.2)

/-- QuantumEntanglementZK.verifier_phase: measure each particle directly
(no gate application) in the basis supplied by the prover. -/
def verifierPhase (F : ℤ → ℕ → ℚ) (verifierParticles : List V4)
    (measurementBases : List String) (st : RNGState) :
    Except QEZKError (List ℤ × RNGState) :=
  measureSeq F (fun v => v) st (verifierParticles.zip measurementBases)

/-- QuantumEntanglementZK.verify: validate lengths, result bits and basis
symbols, compute the CHSH statistic over the single basis list used for
both parties, reject a CHSH value outside [0, 3], and combine the
entanglement test (chsh above threshold) with the 70 percent raw
agreement requirement. -/
def verify (threshold : ℚ) (proverResults verifierResults : List ℤ)
    (measurementBases : List String) : Except QEZKError (Bool × ℚ) :=
  if proverResults.length ≠ verifierResults.length then .error .verificationError
  else if proverResults.length ≠ measurementBases.length then .error .verificationError
  else if proverResults.length = 0 then .error .verificationError
  else if ¬ ∀ r ∈ proverResults, r = 0 ∨ r = 1 then .error .verificationError
  else if ¬ ∀ r ∈ verifierResults, r = 0 ∨ r = 1 then .error .verificationError
  else if ¬ ∀ b ∈ measurementBases, b = "Z" ∨ b = "X" ∨ b = "Y" then .error .verificationError
  else
    let chshValue := (chshInequalityTest proverResults verifierResults
      measurementBases measurementBases).1
    if chshValue < 0 ∨ 3 < chshValue then .error .verificationError
    else
      let isEntangled : Bool := decide (threshold < chshValue)
      let agree := ((proverResults.zip verifierResults).filter fun p => p.1 = p.2).length
      let consistency : Bool :=
        decide ((7 : ℚ) / 10 < (agree : ℚ) / (proverResults.length : ℚ))
      .ok (isEntangled && consistency, chshValue)

/-- The except clause of prove: the five library exception classes
propagate, anything else is wrapped as ProtocolError. -/
def wrapProveError (e : QEZKError) : QEZKError :=
  match e with
  | .protocolError | .configurationError | .entanglementError
  | .verificationError | .measurementError => e
  | _ => .protocolError

/-- QuantumEntanglementZK.prove: validate the statement, then run
setup, prover phase, verifier phase and verify in order and package the
proof record; any phase error aborts the call. -/
def prove (F : ℤ → ℕ → ℚ) (cfg : QEZKConfig) (statement : List ℕ)
    (witness : List Bool) (seed : Option ℤ) (st : RNGState) :
    Except QEZKError ProofRecord :=
  if statement.length = 0 then .error .protocolError
  else
    match setup cfg seed st with
    | .error e => .error (wrapProveError e)
    | .ok s =>
      match proverPhase F statement witness s.1 s.2.2 with
      | .error e => .error (wrapProveError e)
      | .ok pr =>
        match verifierPhase F s.2.1 pr.2.1 pr.2.2 with
        | .error e => .error (wrapProveError e)
        | .ok vr =>
          match verify cfg.chshThreshold pr.1 vr.1 pr.2.1 with
          | .error e => .error (wrapProveError e)
          | .ok v => .ok ⟨pr.1, vr.1, pr.2.1, v.2, v.1, statement⟩

/-!
Specification-side definitions (written from the spec's words, to be
compared with the source-side definitions above).
-/

/-- Spec wording of statement_to_bases: for measurement index i, read byte
i mod 32 of the SHA-256 digest, extract the 2-bit field at bit-offset
2*(i mod 4), and map 0 to Z, 1 to X, 2 to Y, 3 to Z. -/
def specStatementBases (statement : List ℕ) (count : ℤ) : List String :=
  (List.range count.toNat).map fun i =>
    basisOfIndex (((sha256 statement).getD (i % 32) 0 >>> (2 * (i % 4))) &&& 3)

/-- Spec wording of witness_to_gates: partition the witness into 3-bit
groups (ceil(len/3) of them, the last zero-padded on the right), convert
each group to an integer and index modulo 7 into the 7-element gate name
list. -/
def specWitnessGates (wit : List Bool) : List String :=
  (List.range ((wit.length + 2) / 3)).map fun i =>
    gateNames.getD (groupVal ((wit.drop (3 * i)).take 3) % 7) "I"

/-!
Supporting lemmas.
-/

theorem bytesBE_length (k n : ℕ) : (bytesBE k n).length = k := by
  simp [bytesBE]

theorem sha256Round_length (st : List ℕ) (kw : ℕ × ℕ) :
    (sha256Round st kw).length = st.length := by
  unfold sha256Round
  split <;> simp_all

theorem foldl_sha256Round_length (l : List (ℕ × ℕ)) (st : List ℕ) :
    (List.foldl sha256Round st l).length = st.length := by
  induction l generalizing st with
  | nil => rfl
  | cons kw rest ih => simp [List.foldl, ih, sha256Round_length]

theorem sha256Block_length (hs block : List ℕ) :
    (sha256Block hs block).length = hs.length := by
  simp [sha256Block, foldl_sha256Round_length]

theorem foldl_sha256Block_length (chunks : List (List ℕ)) (hs : List ℕ) :
    (List.foldl sha256Block hs chunks).length = hs.length := by
  induction chunks generalizing hs with
  | nil => rfl
  | cons c rest ih => simp [List.foldl, ih, sha256Block_length]

theorem foldr_digest_length (l : List ℕ) :
    (l.foldr (fun h acc => bytesBE 4 h ++ acc) []).length = 4 * l.length := by
  induction l with
  | nil => rfl
  | cons h rest ih => simp [List.foldr, bytesBE_length, ih]; ring

/-- A SHA-256 digest is 32 bytes long. -/
theorem sha256_length (msg : List ℕ) : (sha256 msg).length = 32 := by
  simp [sha256, foldr_digest_length, foldl_sha256Block_length, sha256H0]

theorem specWitnessGates_nil : specWitnessGates [] = [] := rfl

theorem specWitnessGates_one (a : Bool) :
    specWitnessGates [a] = [gateNames.getD (groupVal [a] % 7) "I"] := by
  simp [specWitnessGates, List.range_succ, List.range_zero]

theorem specWitnessGates_two (a b : Bool) :
    specWitnessGates [a, b] = [gateNames.getD (groupVal [a, b] % 7) "I"] := by
  simp [specWitnessGates, List.range_succ, List.range_zero]

theorem specWitnessGates_cons3 (a b c : Bool) (rest : List Bool) :
    specWitnessGates (a :: b :: c :: rest) =
      gateNames.getD (groupVal [a, b, c] % 7) "I" :: specWitnessGates rest := by
  simp only [specWitnessGates, List.length_cons]
  have h3 : (rest.length + 1 + 1 + 1 + 2) / 3 = (rest.length + 2) / 3 + 1 := by omega
  rw [h3, List.range_succ_eq_map]
  simp only [List.map_cons, List.map_map]
  refine List.cons_eq_cons.mpr ⟨?_, ?_⟩
  · simp
  · apply List.map_congr_left
    intro i _
    simp only [Function.comp_apply]
    have h4 : 3 * (i + 1) = 3 * i + 3 := by ring
    rw [h4]
    simp [List.drop_succ_cons]

/-!
Claim theorems.
-/

/-- C9: create_bell_state builds each of the four Bell states by applying
Hadamard to the first qubit of the basis state 00, then CNOT (Phi-plus),
then optionally Z, X, or Y on the first qubit for Phi-minus, Psi-plus,
Psi-minus (this pipeline is the definition of createBellState), and each
of the four returned 4-vectors has squared L2 norm exactly 1 (hence L2
norm 1 within any tolerance). -/
theorem c9_bell_states_norm_one :
    l2normSq (createBellState "phi_plus") = 1 ∧
    l2normSq (createBellState "phi_minus") = 1 ∧
    l2normSq (createBellState "psi_plus") = 1 ∧
    l2normSq (createBellState "psi_minus") = 1 := by
  refine ⟨?_, ?_, ?_, ?_⟩ <;>
  · simp only [createBellState, String.reduceEq, if_false, if_true, reduceIte]
    norm_num [l2normSq, mulVec, dotV4, kron, smulM2, gateH, gateI, gateX,
      gateY, gateZ, gateCNOT, Cyc8.normSq, Cyc8.invSqrtTwo, Cyc8.iu, Cyc8.zero_mk, Cyc8.one_mk,
      Cyc8.mk_neg, Cyc8.mk_mul, Cyc8.mk_add, Cyc8.conj_mk, Cyc8.conj_zero, Cyc8.conj_one,
      Cyc8.mk.injEq]
    rfl

/-- C10: verify raises VerificationError on three empty lists, although
all three lengths agree and the per-element checks hold vacuously. -/
theorem c10_verify_rejects_empty (threshold : ℚ) :
    verify threshold [] [] [] = .error .verificationError := rfl

/-- C5: statement_to_bases is a pure function of statement and count
(its only arguments; neither the witness nor the seed appears): it raises
ConfigurationError when count is below 1, and otherwise returns, for each
0-based index i, the basis read from the 2-bit field at bit-offset
2*(i mod 4) of byte i mod 32 of the SHA-256 digest of the statement
through the map 0 to Z, 1 to X, 2 to Y, 3 to Z. -/
theorem c5_statement_to_bases_spec (statement : List ℕ) (count : ℤ) :
    (count < 1 → statementToBases statement count = .error .configurationError) ∧
    (1 ≤ count → statementToBases statement count = .ok (specStatementBases statement count)) := by
  constructor
  · intro h
    simp [statementToBases, h]
  · intro h
    simp only [statementToBases, if_neg (by omega : ¬ count < 1), specStatementBases,
      sha256_length]

/-- Witness for C5: the two branches evaluated at the one-byte statement
97 with counts -3 and 1. -/
theorem c5_statement_to_bases_spec_witness :
    statementToBases [97] (-3) = .error .configurationError ∧
    statementToBases [97] 1 = .ok (specStatementBases [97] 1) :=
  ⟨(c5_statement_to_bases_spec [97] (-3)).1 (by decide),
   (c5_statement_to_bases_spec [97] 1).2 (by decide)⟩

/-- C6: witness_to_quantum_circuit partitions the witness bitstring into
consecutive 3-bit groups, zero-pads a short final group on the right,
interprets each group as an integer 0 to 7, and selects the gate at that
index modulo 7 from the fixed list I, X, Y, Z, H, S, T; the empty witness
yields the empty gate sequence. -/
theorem c6_witness_to_gates_spec (wit : List Bool) :
    witnessToQuantumCircuit wit = specWitnessGates wit ∧
    witnessToQuantumCircuit [] = [] := by
  refine ⟨?_, rfl⟩
  induction wit using witnessToQuantumCircuit.induct with
  | case1 => rfl
  | case2 a =>
    rw [witnessToQuantumCircuit, specWitnessGates_one]
    simp [gateNames]
  | case3 a b =>
    rw [witnessToQuantumCircuit, specWitnessGates_two]
    simp [gateNames]
  | case4 a b c rest ih =>
    rw [witnessToQuantumCircuit, specWitnessGates_cons3, ih]
    simp [gateNames]

/-- Counterexample for C1: the claim that the Y branch of measure
left-multiplies the state with the same tensor-embedded basis-change
operator as the X branch is false: the two embedded operators differ
(already in the entry at row 0, column 2). -/
theorem c1_y_uses_x_operator_refuted : kron yBasisM gateI ≠ kron xBasisM gateI := by
  intro h
  have h2 := congrArg (fun m => m.r0.s2.c3) h
  norm_num [kron, yBasisM, xBasisM, smulM2, gateI, Cyc8.invSqrtTwo, Cyc8.iu,
    Cyc8.zero_mk, Cyc8.one_mk, Cyc8.mk_neg, Cyc8.mk_mul, Cyc8.mk_add] at h2

set_option maxHeartbeats 2000000 in
/-- C1 (amended): the Y branch of measure left-multiplies the state with
the tensor-embedded circular basis-change operator built from the matrix
with rows (1, i) and (1, -i) over sqrt 2 (not with the X operator), yet
the Y branch and the X branch assign the same outcome-0 probability to
every 4-element state, so the two branches return the same outcome for
every uniform sample. -/
theorem c1_y_branch_matches_x_probability :
    (∀ s : V4, prob0Y s = prob0X s) ∧
    (∀ (r : ℚ) (s : V4), measure r s "Y" = measure r s "X") := by
  have hp : ∀ s : V4, prob0Y s = prob0X s := by
    rintro ⟨⟨a0, a1, a2, a3⟩, ⟨b0, b1, b2, b3⟩, ⟨c0, c1, c2, c3⟩, ⟨d0, d1, d2, d3⟩⟩
    simp only [prob0Y, prob0X, mulVec, dotV4, kron, yBasisM, xBasisM, smulM2, gateI,
      Cyc8.normSq, Cyc8.invSqrtTwo, Cyc8.iu, Cyc8.zero_mk, Cyc8.one_mk, Cyc8.mk_neg,
      Cyc8.mk_mul, Cyc8.mk_add, Cyc8.conj_mk, Cyc8.ext_iff]
    refine ⟨by ring, by ring, by ring, by ring⟩
  refine ⟨hp, fun r s => ?_⟩
  simp [measure, hp s]

/-- C4: prove is deterministic in the seed: with the random generator
modelled as global state that set_seed overwrites with (seed, 0) at the
start of the call, two calls with the same statement, witness and integer
seed return the same value (hence identical prover results, verifier
results, bases and chsh value) regardless of the generator state each
call starts from. -/
theorem c4_prove_deterministic (F : ℤ → ℕ → ℚ) (cfg : QEZKConfig) (statement : List ℕ)
    (witness : List Bool) (seed : ℤ) (st1 st2 : RNGState) :
    prove F cfg statement witness (some seed) st1 =
      prove F cfg statement witness (some seed) st2 := rfl

/-- C7: verify raises VerificationError whenever the two result lists have
different lengths, or the results and bases lists have different lengths,
or some result element is outside 0, 1, or some basis element is outside
Z, X, Y; in each of these cases no (is_valid, chsh_value) pair is
returned. -/
theorem c7_verify_rejects_malformed (threshold : ℚ) (proverResults verifierResults : List ℤ)
    (bases : List String)
    (h : proverResults.length ≠ verifierResults.length ∨
         proverResults.length ≠ bases.length ∨
         (∃ r ∈ proverResults, ¬(r = 0 ∨ r = 1)) ∨
         (∃ r ∈ verifierResults, ¬(r = 0 ∨ r = 1)) ∨
         (∃ b ∈ bases, ¬(b = "Z" ∨ b = "X" ∨ b = "Y"))) :
    verify threshold proverResults verifierResults bases = .error .verificationError := by
  unfold verify
  split_ifs with h1 h2 h3 h4 h5 h6 h7 <;> try rfl
  exfalso
  rcases h with hh | hh | ⟨r, hr, hneg⟩ | ⟨r, hr, hneg⟩ | ⟨b, hb, hneg⟩
  · exact hh (of_not_not h1)
  · exact hh (of_not_not h2)
  · exact hneg (h4 r hr)
  · exact hneg (h5 r hr)
  · exact hneg (h6 b hb)

/-- Witness for C7: a length mismatch (one prover result, no verifier
results) is rejected. -/
theorem c7_verify_rejects_malformed_witness :
    verify (11/5) [0] [] [] = .error .verificationError :=
  c7_verify_rejects_malformed (11/5) [0] [] [] (Or.inl (by decide))

theorem chshStep_same_basis (acc : ChshAcc) (a b : ℤ) (x : String) :
    (chshStep acc a b x x).n01 = acc.n01 ∧ (chshStep acc a b x x).e01 = acc.e01 ∧
    (chshStep acc a b x x).n10 = acc.n10 ∧ (chshStep acc a b x x).e10 = acc.e10 := by
  unfold chshStep
  split_ifs <;> simp_all

theorem chshRun_same_basis (bases : List String) :
    ∀ (pr vr : List ℤ) (acc : ChshAcc),
    acc.n01 = 0 → acc.e01 = 0 → acc.n10 = 0 → acc.e10 = 0 →
    (chshRun acc pr vr bases bases).n01 = 0 ∧ (chshRun acc pr vr bases bases).e01 = 0 ∧
    (chshRun acc pr vr bases bases).n10 = 0 ∧ (chshRun acc pr vr bases bases).e10 = 0 := by
  induction bases with
  | nil =>
    intro pr vr acc h1 h2 h3 h4
    cases pr <;> cases vr <;> simp [chshRun, h1, h2, h3, h4]
  | cons x xr ih =>
    intro pr vr acc h1 h2 h3 h4
    cases pr with
    | nil => simp [chshRun, h1, h2, h3, h4]
    | cons a ar =>
      cases vr with
      | nil => simp [chshRun, h1, h2, h3, h4]
      | cons b br =>
        have hs := chshStep_same_basis acc a b x
        exact ih ar br (chshStep acc a b x x)
          (hs.1.trans h1) (hs.2.1.trans h2) (hs.2.2.1.trans h3) (hs.2.2.2.trans h4)

theorem chshStep_bounds (acc : ChshAcc) (a b : ℤ) (x y : String)
    (h00 : |acc.e00| ≤ (acc.n00 : ℤ)) (h01 : |acc.e01| ≤ (acc.n01 : ℤ))
    (h10 : |acc.e10| ≤ (acc.n10 : ℤ)) (h11 : |acc.e11| ≤ (acc.n11 : ℤ)) :
    |(chshStep acc a b x y).e00| ≤ ((chshStep acc a b x y).n00 : ℤ) ∧
    |(chshStep acc a b x y).e01| ≤ ((chshStep acc a b x y).n01 : ℤ) ∧
    |(chshStep acc a b x y).e10| ≤ ((chshStep acc a b x y).n10 : ℤ) ∧
    |(chshStep acc a b x y).e11| ≤ ((chshStep acc a b x y).n11 : ℤ) := by
  have habs : ∀ e : ℤ, ∀ n : ℕ, |e| ≤ (n : ℤ) →
      |e + (if a = b then (1 : ℤ) else -1)| ≤ ((n + 1 : ℕ) : ℤ) := by
    intro e n he
    have h1 : |e + (if a = b then (1 : ℤ) else -1)| ≤ |e| + |if a = b then (1 : ℤ) else -1| :=
      abs_add e _
    have h2 : |if a = b then (1 : ℤ) else -1| = 1 := by split_ifs <;> simp
    push_cast
    rw [h2] at h1
    linarith
  unfold chshStep
  split_ifs <;> simp_all

theorem chshRun_bounds :
    ∀ (pr vr : List ℤ) (ab bb : List String) (acc : ChshAcc),
    |acc.e00| ≤ (acc.n00 : ℤ) → |acc.e01| ≤ (acc.n01 : ℤ) →
    |acc.e10| ≤ (acc.n10 : ℤ) → |acc.e11| ≤ (acc.n11 : ℤ) →
    |(chshRun acc pr vr ab bb).e00| ≤ ((chshRun acc pr vr ab bb).n00 : ℤ) ∧
    |(chshRun acc pr vr ab bb).e01| ≤ ((chshRun acc pr vr ab bb).n01 : ℤ) ∧
    |(chshRun acc pr vr ab bb).e10| ≤ ((chshRun acc pr vr ab bb).n10 : ℤ) ∧
    |(chshRun acc pr vr ab bb).e11| ≤ ((chshRun acc pr vr ab bb).n11 : ℤ) := by
  intro pr
  induction pr with
  | nil =>
    intro vr ab bb acc h1 h2 h3 h4
    simp [chshRun, h1, h2, h3, h4]
  | cons a ar ih =>
    intro vr ab bb acc h1 h2 h3 h4
    cases vr with
    | nil => simp [chshRun, h1, h2, h3, h4]
    | cons b br =>
      cases ab with
      | nil => simp [chshRun, h1, h2, h3, h4]
      | cons x xr =>
        cases bb with
        | nil => simp [chshRun, h1, h2, h3, h4]
        | cons y yr =>
          have hs := chshStep_bounds acc a b x y h1 h2 h3 h4
          exact ih br xr yr (chshStep acc a b x y) hs.1 hs.2.1 hs.2.2.1 hs.2.2.2

theorem chshCell_bound (e : ℤ) (n : ℕ) (h : |e| ≤ (n : ℤ)) : |chshCell e n| ≤ 1 := by
  unfold chshCell
  split_ifs with hn
  · rw [abs_div]
    rw [div_le_one (by positivity)]
    have hcast : |(n : ℚ)| = (n : ℚ) := abs_of_nonneg (by positivity)
    rw [hcast]
    exact_mod_cast (by exact_mod_cast h : |(e : ℚ)| ≤ (n : ℚ))
  · simp

/-- C2: whenever verify returns without raising, the returned chsh value
is at most 2: verify passes the single basis list as both parties' bases,
so the off-diagonal cells receive no samples and stay 0 and the statistic
reduces to the absolute value of E(Z,Z) + E(X,X), which is at most 2;
hence with any threshold above 2 (such as the default 2.2) is_valid is
always false. -/
theorem c2_verify_chsh_at_most_two (threshold : ℚ) (pr vr : List ℤ) (bases : List String)
    (b : Bool) (v : ℚ) (h : verify threshold pr vr bases = .ok (b, v)) :
    v ≤ 2 ∧ (2 < threshold → b = false) := by
  have hkey : (chshInequalityTest pr vr bases bases).1 ≤ 2 := by
    simp only [chshInequalityTest]
    have hz := chshRun_same_basis bases pr vr ChshAcc.init rfl rfl rfl rfl
    have hb := chshRun_bounds pr vr bases bases ChshAcc.init
      (by simp [ChshAcc.init]) (by simp [ChshAcc.init])
      (by simp [ChshAcc.init]) (by simp [ChshAcc.init])
    have h01 : chshCell (chshRun ChshAcc.init pr vr bases bases).e01
        (chshRun ChshAcc.init pr vr bases bases).n01 = 0 := by
      rw [hz.2.1, hz.1]; rfl
    have h10 : chshCell (chshRun ChshAcc.init pr vr bases bases).e10
        (chshRun ChshAcc.init pr vr bases bases).n10 = 0 := by
      rw [hz.2.2.2, hz.2.2.1]; rfl
    have b00 := chshCell_bound _ _ hb.1
    have b11 := chshCell_bound _ _ hb.2.2.2
    rw [h01, h10]
    have heq : chshCell (chshRun ChshAcc.init pr vr bases bases).e00
          (chshRun ChshAcc.init pr vr bases bases).n00 - 0 + 0 +
        chshCell (chshRun ChshAcc.init pr vr bases bases).e11
          (chshRun ChshAcc.init pr vr bases bases).n11 =
        chshCell (chshRun ChshAcc.init pr vr bases bases).e00
          (chshRun ChshAcc.init pr vr bases bases).n00 +
        chshCell (chshRun ChshAcc.init pr vr bases bases).e11
          (chshRun ChshAcc.init pr vr bases bases).n11 := by ring
    rw [heq]
    have habs := abs_add
      (chshCell (chshRun ChshAcc.init pr vr bases bases).e00
        (chshRun ChshAcc.init pr vr bases bases).n00)
      (chshCell (chshRun ChshAcc.init pr vr bases bases).e11
        (chshRun ChshAcc.init pr vr bases bases).n11)
    linarith [habs, b00, b11]
  unfold verify at h
  split_ifs at h <;> try exact Except.noConfusion h
  simp only [] at h
  by_cases hc : (chshInequalityTest pr vr bases bases).1 < 0 ∨
      3 < (chshInequalityTest pr vr bases bases).1
  · rw [if_pos hc] at h
    exact Except.noConfusion h
  rw [if_neg hc] at h
  rw [Except.ok.injEq, Prod.mk.injEq] at h
  obtain ⟨hb, hv⟩ := h
  constructor
  · rw [← hv]
    exact hkey
  · intro ht
    have hlt : ¬ (threshold < (chshInequalityTest pr vr bases bases).1) := by linarith
    rw [← hb]
    simp [hlt]

/-- Witness for C2: verify accepts the one-sample input with both results
0 in basis Z and returns the chsh value 1, which is at most 2 and below
the threshold 11/5. -/
theorem c2_verify_chsh_at_most_two_witness :
    (1 : ℚ) ≤ 2 ∧ ((2 : ℚ) < 11/5 → false = false) := by
  have hch : (chshInequalityTest [0] [0] ["Z"] ["Z"]).1 = 1 := by
    simp only [chshInequalityTest, chshRun, chshStep, ChshAcc.init, String.reduceEq,
      Int.reduceEq, reduceIte, and_self, and_true, true_and, or_true, true_or, or_self]
    norm_num [chshCell]
  have h : verify (11/5) [0] [0] ["Z"] = .ok (false, 1) := by
    unfold verify
    rw [if_neg (by decide), if_neg (by decide), if_neg (by decide), if_neg (by decide),
      if_neg (by decide), if_neg (by decide)]
    simp only [hch]
    rw [if_neg (by norm_num)]
    have h1 : decide ((11/5 : ℚ) < 1) = false := by
      rw [decide_eq_false_iff_not]
      norm_num
    have h2 : decide ((7/10 : ℚ) <
        ((List.filter (fun p => decide (p.1 = p.2))
          (([0] : List ℤ).zip ([0] : List ℤ))).length : ℚ) / (([0] : List ℤ).length : ℚ)) =
        true := by
      rw [decide_eq_true_iff]
      norm_num [List.filter, List.zip]
    rw [h1, h2]
    rfl
  exact c2_verify_chsh_at_most_two (11/5) [0] [0] ["Z"] false 1 h

/-- Counterexample for C3: a valid input (four equal-length lists, binary
results, bases within Z, X, Y) on which the CHSH value returned by
chsh_inequality_test exceeds 3 (it is 4), refuting the claimed range
[0, 3]. -/
theorem c3_chsh_value_exceeds_three :
    ([0, 0, 0, 0] : List ℤ).length = ([0, 1, 0, 0] : List ℤ).length ∧
    ([0, 0, 0, 0] : List ℤ).length = (["Z", "Z", "X", "X"] : List String).length ∧
    ([0, 0, 0, 0] : List ℤ).length = (["Z", "X", "Z", "X"] : List String).length ∧
    (∀ r ∈ ([0, 0, 0, 0] : List ℤ), r = 0 ∨ r = 1) ∧
    (∀ r ∈ ([0, 1, 0, 0] : List ℤ), r = 0 ∨ r = 1) ∧
    (∀ x ∈ (["Z", "Z", "X", "X"] : List String), x = "Z" ∨ x = "X" ∨ x = "Y") ∧
    (∀ x ∈ (["Z", "X", "Z", "X"] : List String), x = "Z" ∨ x = "X" ∨ x = "Y") ∧
    ¬ ((chshInequalityTest [0, 0, 0, 0] [0, 1, 0, 0]
        ["Z", "Z", "X", "X"] ["Z", "X", "Z", "X"]).1 ≤ 3) := by
  refine ⟨rfl, rfl, rfl, by decide, by decide, by decide, by decide, ?_⟩
  have hv : (chshInequalityTest [0, 0, 0, 0] [0, 1, 0, 0]
      ["Z", "Z", "X", "X"] ["Z", "X", "Z", "X"]).1 = 4 := by
    simp only [chshInequalityTest, chshRun, chshStep, ChshAcc.init, String.reduceEq,
      Int.reduceEq, reduceIte, and_self, and_true, true_and, or_true, true_or, or_self,
      and_false, false_and, or_false, false_or]
    norm_num [chshCell]
  rw [hv]
  norm_num

/-- C3 (amended): for every valid input (four equal-length lists with
binary results and basis symbols within Z, X, Y) the CHSH value returned
by chsh_inequality_test lies in the interval [0, 4] (each of the four
correlation cells lies in [-1, 1], and all four can contribute with the
same sign when the two basis lists differ). -/
theorem c3_chsh_value_range (ar br : List ℤ) (ab bb : List String)
    (hl1 : ar.length = br.length) (hl2 : ar.length = ab.length) (hl3 : ar.length = bb.length)
    (hr1 : ∀ r ∈ ar, r = 0 ∨ r = 1) (hr2 : ∀ r ∈ br, r = 0 ∨ r = 1)
    (hb1 : ∀ x ∈ ab, x = "Z" ∨ x = "X" ∨ x = "Y")
    (hb2 : ∀ x ∈ bb, x = "Z" ∨ x = "X" ∨ x = "Y") :
    0 ≤ (chshInequalityTest ar br ab bb).1 ∧ (chshInequalityTest ar br ab bb).1 ≤ 4 := by
  constructor
  · simp only [chshInequalityTest]
    exact abs_nonneg _
  · simp only [chshInequalityTest]
    have hb := chshRun_bounds ar br ab bb ChshAcc.init
      (by simp [ChshAcc.init]) (by simp [ChshAcc.init])
      (by simp [ChshAcc.init]) (by simp [ChshAcc.init])
    have b00 := chshCell_bound _ _ hb.1
    have b01 := chshCell_bound _ _ hb.2.1
    have b10 := chshCell_bound _ _ hb.2.2.1
    have b11 := chshCell_bound _ _ hb.2.2.2
    set c00 := chshCell (chshRun ChshAcc.init ar br ab bb).e00
      (chshRun ChshAcc.init ar br ab bb).n00
    set c01 := chshCell (chshRun ChshAcc.init ar br ab bb).e01
      (chshRun ChshAcc.init ar br ab bb).n01
    set c10 := chshCell (chshRun ChshAcc.init ar br ab bb).e10
      (chshRun ChshAcc.init ar br ab bb).n10
    set c11 := chshCell (chshRun ChshAcc.init ar br ab bb).e11
      (chshRun ChshAcc.init ar br ab bb).n11
    have h1 : |c00 - c01 + c10 + c11| ≤ |c00 - c01 + c10| + |c11| := abs_add _ _
    have h2 : |c00 - c01 + c10| ≤ |c00 - c01| + |c10| := abs_add _ _
    have h3 : |c00 - c01| ≤ |c00| + |c01| := abs_sub _ _
    linarith

/-- Witness for C3 (amended): the range theorem applied to the concrete
valid four-sample input whose CHSH value is 4. -/
theorem c3_chsh_value_range_witness :
    0 ≤ (chshInequalityTest [0, 0, 0, 0] [0, 1, 0, 0]
        ["Z", "Z", "X", "X"] ["Z", "X", "Z", "X"]).1 ∧
    (chshInequalityTest [0, 0, 0, 0] [0, 1, 0, 0]
        ["Z", "Z", "X", "X"] ["Z", "X", "Z", "X"]).1 ≤ 4 :=
  c3_chsh_value_range [0, 0, 0, 0] [0, 1, 0, 0] ["Z", "Z", "X", "X"] ["Z", "X", "Z", "X"]
    rfl rfl rfl (by decide) (by decide) (by decide) (by decide)

theorem measureSeq_ok_length (F : ℤ → ℕ → ℚ) (t : V4 → V4) :
    ∀ (pairs : List (V4 × String)) (st : RNGState) (res : List ℤ × RNGState),
    measureSeq F t st pairs = .ok res → res.1.length = pairs.length := by
  intro pairs
  induction pairs with
  | nil =>
    intro st res h
    simp only [measureSeq, Except.ok.injEq] at h
    rw [← h]
    rfl
  | cons pb rest ih =>
    intro st res h
    simp only [measureSeq] at h
    cases hm : measure (F st.1 st.2) (t pb.1) pb.2 with
    | error e => rw [hm] at h; exact Except.noConfusion h
    | ok o =>
      rw [hm] at h
      cases hr : measureSeq F t (st.1, st.2 + 1) rest with
      | error e => rw [hr] at h; exact Except.noConfusion h
      | ok osSt =>
        rw [hr] at h
        rw [Except.ok.injEq] at h
        rw [← h]
        simp [ih (st.1, st.2 + 1) osSt hr]

theorem setup_ok (cfg : QEZKConfig) (seed : Option ℤ) (st : RNGState)
    (s : List V4 × List V4 × RNGState) (h : setup cfg seed st = .ok s) :
    s.1.length = cfg.numPairs.toNat ∧ s.2.1.length = cfg.numPairs.toNat ∧
    0 ≤ cfg.numPairs := by
  unfold setup generateEPRPairs at h
  split_ifs at h with h1 h2 h3 <;> try exact Except.noConfusion h
  simp only [splitEPRPairs, Except.ok.injEq] at h
  rw [← h]
  refine ⟨by simp, by simp, by omega⟩

theorem proverPhase_ok (F : ℤ → ℕ → ℚ) (stmt : List ℕ) (wit : List Bool)
    (particles : List V4) (st : RNGState) (res : List ℤ × List String × RNGState)
    (h : proverPhase F stmt wit particles st = .ok res) :
    res.1.length = particles.length ∧ res.2.1.length = particles.length := by
  unfold proverPhase at h
  split_ifs at h with h1 h2 <;> try exact Except.noConfusion h
  cases hb : statementToBases stmt (particles.length : ℤ) with
  | error e => rw [hb] at h; exact Except.noConfusion h
  | ok bases =>
    rw [hb] at h
    simp only [] at h
    split_ifs at h with h3 <;> try exact Except.noConfusion h
    cases hm : measureSeq F (applyCircuit (witnessToQuantumCircuit wit)) st
        (particles.zip bases) with
    | error e => rw [hm] at h; exact Except.noConfusion h
    | ok resultsSt =>
      rw [hm] at h
      simp only [] at h
      split_ifs at h with h4 <;> try exact Except.noConfusion h
      rw [Except.ok.injEq] at h
      rw [← h]
      exact ⟨of_not_not h4, of_not_not h3⟩

/-- C8: for every successful prove call on a system configured with
numPairs EPR pairs, the returned proof record satisfies
len(prover_results) = len(verifier_results) = len(measurement_bases) =
numPairs (the witness instantiates this with the empty witness, whose
gate sequence is empty). -/
theorem c8_prove_lengths_equal_num_pairs (F : ℤ → ℕ → ℚ) (cfg : QEZKConfig)
    (stmt : List ℕ) (wit : List Bool) (seed : Option ℤ) (st : RNGState) (p : ProofRecord)
    (h : prove F cfg stmt wit seed st = .ok p) :
    (p.proverResults.length : ℤ) = cfg.numPairs ∧
    (p.verifierResults.length : ℤ) = cfg.numPairs ∧
    (p.measurementBases.length : ℤ) = cfg.numPairs := by
  unfold prove at h
  split_ifs at h with h0 <;> try exact Except.noConfusion h
  cases hs : setup cfg seed st with
  | error e => rw [hs] at h; exact Except.noConfusion h
  | ok s =>
    rw [hs] at h
    simp only [] at h
    obtain ⟨hpp, hvp, hnn⟩ := setup_ok cfg seed st s hs
    cases hpr : proverPhase F stmt wit s.1 s.2.2 with
    | error e => rw [hpr] at h; exact Except.noConfusion h
    | ok pr =>
      rw [hpr] at h
      simp only [] at h
      obtain ⟨hr1, hr2⟩ := proverPhase_ok F stmt wit s.1 s.2.2 pr hpr
      cases hvr : verifierPhase F s.2.1 pr.2.1 pr.2.2 with
      | error e => rw [hvr] at h; exact Except.noConfusion h
      | ok vr =>
        rw [hvr] at h
        simp only [] at h
        have hv1 : vr.1.length = (s.2.1.zip pr.2.1).length := by
          unfold verifierPhase at hvr
          exact measureSeq_ok_length F (fun v => v) (s.2.1.zip pr.2.1) pr.2.2 vr hvr
        cases hvf : verify cfg.chshThreshold pr.1 vr.1 pr.2.1 with
        | error e => rw [hvf] at h; exact Except.noConfusion h
        | ok v =>
          rw [hvf] at h
          simp only [Except.ok.injEq] at h
          rw [← h]
          simp only [List.length_zip] at hv1
          refine ⟨?_, ?_, ?_⟩
          · simp only [hr1, hpp]
            omega
          · simp only [hv1, hvp, hr2, hpp]
            omega
          · simp only [hr2, hpp]
            omega

theorem c8_wit_bell : createBellState "phi_plus" =
    V4.mk (Cyc8.mk 0 (1/2) 0 (-(1/2))) 0 0 (Cyc8.mk 0 (1/2) 0 (-(1/2))) := by
  simp only [createBellState, String.reduceEq, if_false, if_true, reduceIte]
  norm_num [mulVec, dotV4, kron, smulM2, gateH, gateI, gateCNOT,
    Cyc8.invSqrtTwo, Cyc8.zero_mk, Cyc8.one_mk,
    Cyc8.mk_neg, Cyc8.mk_mul, Cyc8.mk_add, Cyc8.mk.injEq, V4.mk.injEq]

theorem c8_wit_bases : statementToBases [97] 1 = .ok ["Y"] := by decide

theorem c8_wit_measure :
    measure 0 (V4.mk (Cyc8.mk 0 (1/2) 0 (-(1/2))) 0 0 (Cyc8.mk 0 (1/2) 0 (-(1/2)))) "Y" =
      .ok 0 := by
  have hprob : prob0Y (V4.mk (Cyc8.mk 0 (1/2) 0 (-(1/2))) 0 0 (Cyc8.mk 0 (1/2) 0 (-(1/2)))) =
      Cyc8.mk (1/2) 0 0 0 := by
    norm_num [prob0Y, mulVec, dotV4, kron, yBasisM, smulM2, gateI, Cyc8.normSq,
      Cyc8.invSqrtTwo, Cyc8.iu, Cyc8.zero_mk, Cyc8.one_mk, Cyc8.mk_neg, Cyc8.mk_mul,
      Cyc8.mk_add, Cyc8.conj_mk, Cyc8.mk.injEq]
  have hlt : ltReal 0 (Cyc8.mk (1/2) 0 0 0) = true := by
    norm_num [ltReal]
  simp only [measure, String.reduceEq, reduceIte, hprob, hlt]

theorem c8_wit_prove :
    prove (fun _ _ => (0 : ℚ)) ⟨1, 11/5⟩ [97] [] (some 0) (5, 7) =
      .ok ⟨[0], [0], ["Y"], 0, false, [97]⟩ := by
  have hbell := c8_wit_bell
  have hsetup : setup ⟨1, 11/5⟩ (some 0) (5, 7) = .ok
      ([V4.mk (Cyc8.mk 0 (1/2) 0 (-(1/2))) 0 0 (Cyc8.mk 0 (1/2) 0 (-(1/2)))],
       [V4.mk (Cyc8.mk 0 (1/2) 0 (-(1/2))) 0 0 (Cyc8.mk 0 (1/2) 0 (-(1/2)))], (0, 0)) := by
    simp only [setup, setSeed, generateEPRPairs, splitEPRPairs, hbell]
    norm_num [List.replicate]
  have hseq : measureSeq (fun _ _ => (0 : ℚ)) (applyCircuit (witnessToQuantumCircuit [])) (0, 0)
      ([V4.mk (Cyc8.mk 0 (1/2) 0 (-(1/2))) 0 0 (Cyc8.mk 0 (1/2) 0 (-(1/2)))].zip ["Y"]) =
      .ok ([0], (0, 1)) := by
    simp only [List.zip, List.zipWith, measureSeq, witnessToQuantumCircuit, applyCircuit,
      List.foldl, c8_wit_measure]
  have hprover : proverPhase (fun _ _ => (0 : ℚ)) [97] []
      [V4.mk (Cyc8.mk 0 (1/2) 0 (-(1/2))) 0 0 (Cyc8.mk 0 (1/2) 0 (-(1/2)))] (0, 0) =
      .ok ([0], ["Y"], (0, 1)) := by
    simp only [proverPhase, List.length_singleton, Nat.cast_one, c8_wit_bases, hseq]
    norm_num
  have hverifier : verifierPhase (fun _ _ => (0 : ℚ))
      [V4.mk (Cyc8.mk 0 (1/2) 0 (-(1/2))) 0 0 (Cyc8.mk 0 (1/2) 0 (-(1/2)))] ["Y"] (0, 1) =
      .ok ([0], (0, 2)) := by
    simp only [verifierPhase, List.zip, List.zipWith, measureSeq, c8_wit_measure]
  have hch : (chshInequalityTest [0] [0] ["Y"] ["Y"]).1 = 0 := by
    simp only [chshInequalityTest, chshRun, chshStep, ChshAcc.init, String.reduceEq,
      Int.reduceEq, reduceIte, and_self, and_true, true_and, or_true, true_or, or_self,
      and_false, false_and, or_false, false_or]
    norm_num [chshCell]
  have hverify : verify (11/5) [0] [0] ["Y"] = .ok (false, 0) := by
    unfold verify
    rw [if_neg (by decide), if_neg (by decide), if_neg (by decide), if_neg (by decide),
      if_neg (by decide), if_neg (by decide)]
    simp only [hch]
    rw [if_neg (by norm_num)]
    have h1 : decide ((11/5 : ℚ) < 0) = false := by
      rw [decide_eq_false_iff_not]
      norm_num
    have h2 : decide ((7/10 : ℚ) <
        ((List.filter (fun p => decide (p.1 = p.2))
          (([0] : List ℤ).zip ([0] : List ℤ))).length : ℚ) / (([0] : List ℤ).length : ℚ)) =
        true := by
      rw [decide_eq_true_iff]
      norm_num [List.filter, List.zip]
    rw [h1, h2]
    rfl
  simp only [prove, hsetup, hprover, hverifier, hverify]
  norm_num

/-- Witness for C8: the length conclusion instantiated at a concrete
successful prove call with one EPR pair, the one-byte statement 97, the
empty witness and seed 0. -/
theorem c8_prove_lengths_equal_num_pairs_witness :
    (((ProofRecord.mk [0] [0] ["Y"] 0 false [97]).proverResults.length : ℤ) =
      (QEZKConfig.mk 1 (11/5)).numPairs) ∧
    (((ProofRecord.mk [0] [0] ["Y"] 0 false [97]).verifierResults.length : ℤ) =
      (QEZKConfig.mk 1 (11/5)).numPairs) ∧
    (((ProofRecord.mk [0] [0] ["Y"] 0 false [97]).measurementBases.length : ℤ) =
      (QEZKConfig.mk 1 (11/5)).numPairs) :=
  c8_prove_lengths_equal_num_pairs (fun _ _ => (0 : ℚ)) ⟨1, 11/5⟩ [97] [] (some 0) (5, 7)
    ⟨[0], [0], ["Y"], 0, false, [97]⟩ c8_wit_prove

end QEZK

